import Mathlib

/-!
Verification development for the streaming client in
`alpaca_trade_api/stream.py` (Stream V2).

The Python code is shallowly embedded: Python dicts become association
lists, msgpack values become an inductive `PyVal`, Python exceptions
become an inductive `PyError`, and fallible operations return
`Except PyError _` or carry an `Option PyError` next to the mutated
state when the Python code mutates in place before raising.
-/

set_option maxHeartbeats 1000000

namespace AlpacaStream

/-- A decoded msgpack / JSON value, as far as the stream code inspects one:
strings, integers, and msgpack `Timestamp` extension values (which carry a
`seconds` and a `nanoseconds` attribute, read in `DataStream._cast`). -/
inductive PyVal where
  | str (s : String)
  | int (n : Int)
  | ts (seconds : Int) (nanoseconds : Nat)
  deriving DecidableEq, Repr

/-- The Python exceptions the embedded code can raise or that the spec
names: `ValueError`, `KeyError`, `TypeError`, `ConnectionError`,
`IndexError`, `AttributeError`. -/
inductive PyError where
  | valueError (msg : String)
  | keyError (key : Option PyVal)
  | typeError (msg : String)
  | connectionError (msg : String)
  | indexError
  | attributeError
  deriving DecidableEq, Repr

/-- A caller-supplied handler. `isCoroutine` models the result of
`asyncio.iscoroutinefunction(handler)`; `hid` distinguishes handlers. -/
structure Handler where
  hid : Nat
  isCoroutine : Bool
  deriving DecidableEq, Repr

/-- A Python dict key in a handler registry: `None` or a value.
(`msg.get('S')` yields `None` when the field is absent, and that `None`
is looked up directly in the registry dict by `_dispatch`.) -/
abbrev Key := Option PyVal

/-- A handler registry: a Python dict from symbol key to handler,
embedded as an association list with at most one entry per key. -/
abbrev Dict := List (Key × Handler)

/-- A decoded message: a Python dict from field name to value. -/
abbrev Msg := List (String × PyVal)

/-! ### Python dict primitives -/

/-- `d.get(k)` / `d[k]` lookup: first entry with the given key. -/
def dictLookup {K V : Type} [DecidableEq K] (k : K) : List (K × V) → Option V
  | [] => none
  | (k', v) :: rest => if k = k' then some v else dictLookup k rest

/-- `d[k] = v`: replace the value at `k` in place, or append a new entry. -/
def dictInsert {K V : Type} [DecidableEq K] (k : K) (v : V) : List (K × V) → List (K × V)
  | [] => [(k, v)]
  | (k', v') :: rest =>
    if k' = k then (k, v) :: rest else (k', v') :: dictInsert k v rest

/-- `del d[k]`: remove the entry at `k`, or `none` (Python `KeyError`)
when the key is absent. -/
def dictRemove {K V : Type} [DecidableEq K] (k : K) :
    List (K × V) → Option (List (K × V))
  | [] => none
  | (k', v') :: rest =>
    if k' = k then some rest
    else
      match dictRemove k rest with
      | some rest' => some ((k', v') :: rest')
      | none => none

/-- `d.keys()`. -/
def dictKeys {K V : Type} (d : List (K × V)) : List K := d.map Prod.fst

/-- The Python-dict invariant: every key occurs at most once. -/
def NodupKeys {K V : Type} (d : List (K × V)) : Prop := (dictKeys d).Nodup

instance {K V : Type} [DecidableEq K] (d : List (K × V)) :
    Decidable (NodupKeys d) := by
  unfold NodupKeys; infer_instance

/-! ### `_ensure_coroutine` and subscription registry operations -/

/-- `_ensure_coroutine(handler)`: raises `ValueError` when the handler is
not a coroutine function. -/
def ensureCoroutine (h : Handler) : Except PyError Unit :=
  if h.isCoroutine then .ok () else
    .error (.valueError "handler must be a coroutine function")

/-- Registry key for a plain string symbol passed to a subscribe or
unsubscribe call. -/
def strKey (s : String) : Key := some (.str s)

/-- The wildcard key `'*'` used by `_dispatch`. -/
def wildcardKey : Key := some (.str "*")

/-- The `for symbol in symbols: handlers[symbol] = handler` loop of
`DataStream._subscribe`. -/
def subFold (h : Handler) : List String → Dict → Dict
  | [], d => d
  | s :: rest, d => subFold h rest (dictInsert (strKey s) h d)

/-- `DataStream._subscribe` minus the resubscribe side effect: check the
handler, then store it under every symbol. On error the dict is returned
unchanged (the Python loop never ran). -/
def subscribeTopicRun (h : Handler) (symbols : List String) (d : Dict) :
    Dict × Option PyError :=
  match ensureCoroutine h with
  | .ok _ => (subFold h symbols d, none)
  | .error e => (d, some e)

/-- `TradingStream.subscribe_trade_updates` minus the listen side effect:
check the handler, then overwrite the single trade-updates handler slot. -/
def subscribeTradeUpdates (h : Handler) (current : Option Handler) :
    Option Handler × Option PyError :=
  match ensureCoroutine h with
  | .ok _ => (some h, none)
  | .error e => (current, some e)

/-- An event observable during an unsubscribe call: an outbound wire
message or a single registry removal. -/
structure WireUnsub where
  trades : List String
  quotes : List String
  bars : List String
  deriving DecidableEq, Repr

inductive UEvent where
  | sent (w : WireUnsub)
  | removed (k : Key)
  deriving DecidableEq, Repr

/-- The `for symbol in symbols: del self._trade_handlers[symbol]` loop of
the `unsubscribe_*` methods: removes symbols one at a time, stopping with
a `KeyError` at the first absent symbol; removals already made stay made
(the Python dict is mutated in place). Also records one `removed` event
per successful deletion. -/
def delLoopEv : Dict → List String → Dict × List UEvent × Option PyError
  | d, [] => (d, [], none)
  | d, s :: rest =>
    match dictRemove (strKey s) d with
    | none => (d, [], some (.keyError (strKey s)))
    | some d1 =>
      match delLoopEv d1 rest with
      | (d2, evs2, err) => (d2, UEvent.removed (strKey s) :: evs2, err)

/-- The mutable state of a `DataStream`: the three per-topic handler
registries and the `_running` flag. -/
structure DataStreamState where
  tradeHandlers : Dict
  quoteHandlers : Dict
  barHandlers : Dict
  running : Bool
  deriving DecidableEq, Repr

/-- The registries and flag as `DataStream.__init__` leaves them. -/
def emptyDataStream : DataStreamState :=
  { tradeHandlers := [], quoteHandlers := [], barHandlers := [],
    running := false }

def RegNodup (st : DataStreamState) : Prop :=
  NodupKeys st.tradeHandlers ∧ NodupKeys st.quoteHandlers ∧
    NodupKeys st.barHandlers

instance (st : DataStreamState) : Decidable (RegNodup st) := by
  unfold RegNodup; infer_instance

/-- The payload of the bulk subscribe message built by
`DataStream._subscribe_all`: the full key tuple of every registry. -/
structure WireSub where
  trades : List Key
  quotes : List Key
  bars : List Key
  deriving DecidableEq, Repr

/-- `DataStream._subscribe_all`: sends one bulk subscribe message listing
every registry's keys, but only when some registry is non-empty. -/
def subscribeAllMsg (st : DataStreamState) : Option WireSub :=
  if st.tradeHandlers ≠ [] ∨ st.quoteHandlers ≠ [] ∨ st.barHandlers ≠ [] then
    some { trades := dictKeys st.tradeHandlers,
           quotes := dictKeys st.quoteHandlers,
           bars := dictKeys st.barHandlers }
  else none

inductive Topic where
  | trades
  | quotes
  | bars
  deriving DecidableEq, Repr

def regOf : Topic → DataStreamState → Dict
  | .trades, st => st.tradeHandlers
  | .quotes, st => st.quoteHandlers
  | .bars, st => st.barHandlers

def setReg : Topic → Dict → DataStreamState → DataStreamState
  | .trades, d, st => { st with tradeHandlers := d }
  | .quotes, d, st => { st with quoteHandlers := d }
  | .bars, d, st => { st with barHandlers := d }

def topicKeys : Topic → WireSub → List Key
  | .trades, w => w.trades
  | .quotes, w => w.quotes
  | .bars, w => w.bars

/-- One registry-mutating API call: `subscribe_trades/quotes/bars` or
`unsubscribe_trades/quotes/bars` (wire side effects omitted; they do not
touch the registries). -/
inductive Op where
  | sub (t : Topic) (h : Handler) (symbols : List String)
  | unsub (t : Topic) (symbols : List String)
  deriving DecidableEq, Repr

def topicOf : Op → Topic
  | .sub t _ _ => t
  | .unsub t _ => t

def symsOf : Op → List String
  | .sub _ _ symbols => symbols
  | .unsub _ symbols => symbols

/-- The value an operation leaves at each symbol it touches: the new
handler for a subscribe, absence for an unsubscribe. -/
def opWrite : Op → Option Handler
  | .sub _ h _ => some h
  | .unsub _ _ => none

/-- The `(topic, symbol)` pairs an operation touches. -/
def touched (op : Op) : List (Topic × String) :=
  (symsOf op).map (fun s => (topicOf op, s))

def OpDisjoint (op1 op2 : Op) : Prop :=
  ∀ p ∈ touched op1, p ∉ touched op2

/-- Apply one API call to the registries, failing like the Python call
does (`ValueError` from `_ensure_coroutine`, `KeyError` from `del`). -/
def applyOp (st : DataStreamState) : Op → Except PyError DataStreamState
  | .sub t h symbols =>
    match subscribeTopicRun h symbols (regOf t st) with
    | (d', none) => .ok (setReg t d' st)
    | (_, some e) => .error e
  | .unsub t symbols =>
    match delLoopEv (regOf t st) symbols with
    | (d', _, none) => .ok (setReg t d' st)
    | (_, _, some e) => .error e

def applySeq (st : DataStreamState) : List Op → Except PyError DataStreamState
  | [] => .ok st
  | op :: ops =>
    match applyOp st op with
    | .ok st' => applySeq st' ops
    | .error e => .error e

/-- One fold step of the net effect of a call sequence on one
`(topic, symbol)` slot: the last subscribe or unsubscribe naming that
slot wins. -/
def lwStep (t : Topic) (k : String) (op : Op) (acc : Option Handler) :
    Option Handler :=
  match op with
  | .sub t' h symbols => if t' = t ∧ k ∈ symbols then some h else acc
  | .unsub t' symbols => if t' = t ∧ k ∈ symbols then none else acc

def lastWriteFrom (t : Topic) (k : String) :
    List Op → Option Handler → Option Handler
  | [], acc => acc
  | op :: ops, acc => lastWriteFrom t k ops (lwStep t k op acc)

/-- The net effect of a whole call sequence on one `(topic, symbol)`
slot, starting from the empty registries. -/
def lastWrite (t : Topic) (k : String) (ops : List Op) : Option Handler :=
  lastWriteFrom t k ops none

/-- The payload of the delta unsubscribe message built by
`_unsubscribe(trades=..)` / `(quotes=..)` / `(bars=..)`: the given
symbols in the called topic's slot, the other two slots empty. -/
def unsubWire : Topic → List String → WireUnsub
  | .trades, symbols => { trades := symbols, quotes := [], bars := [] }
  | .quotes, symbols => { trades := [], quotes := symbols, bars := [] }
  | .bars, symbols => { trades := [], quotes := [], bars := symbols }

/-- `DataStream.unsubscribe_trades` / `unsubscribe_quotes` /
`unsubscribe_bars` (chosen by the `Topic`): when `_running`, first send
the delta unsubscribe message (`_unsubscribe` sends only when some
symbol list is non-empty), then delete each symbol in order from that
topic's registry. Returns the event trace, the final state, and the
raised error if any. -/
def unsubscribeRun (t : Topic) (st : DataStreamState)
    (symbols : List String) :
    List UEvent × DataStreamState × Option PyError :=
  let sentEvs : List UEvent :=
    if st.running = true ∧ symbols ≠ [] then
      [UEvent.sent (unsubWire t symbols)]
    else []
  match delLoopEv (regOf t st) symbols with
  | (d', remEvs, err) =>
    (sentEvs ++ remEvs, setReg t d' st, err)

/-! ### `_cast` and `_dispatch` -/

/-- Reading `.seconds` / `.nanoseconds` on a value and forming
`seconds * int(1e9) + nanoseconds` (`DataStream._cast`); an
`AttributeError` on a non-timestamp value. -/
def tsAttrNanos (v : PyVal) : Except PyError PyVal :=
  match v with
  | .ts s n => .ok (.int (s * 1000000000 + (n : Int)))
  | _ => .error .attributeError

/-- The `if 't' in msg: msg['t'] = msg['t'].seconds * int(1e9) +
msg['t'].nanoseconds` step of `_cast`. -/
def normalizeTimestamp (m : Msg) : Except PyError Msg :=
  match dictLookup "t" m with
  | none => .ok m
  | some v =>
    match tsAttrNanos v with
    | .ok nv => .ok (dictInsert "t" nv m)
    | .error e => .error e

/-- `{mapping[k]: v for k, v in msg.items() if k in mapping}`. -/
def projectFields (mapping : List (String × String)) (m : Msg) : Msg :=
  m.foldl
    (fun acc kv =>
      match dictLookup kv.1 mapping with
      | some k' => dictInsert k' kv.2 acc
      | none => acc)
    []

/-- The result of `DataStream._cast`: the raw dict, or a typed
`Trade` / `Quote` / `Bar` / `Entity` record built from the (possibly
timestamp-normalized) dict. -/
inductive CastOut where
  | rawMsg (m : Msg)
  | trade (m : Msg)
  | quote (m : Msg)
  | bar (m : Msg)
  | entity (m : Msg)
  deriving DecidableEq, Repr

/-- `DataStream._cast(msg_type, msg)`. The three field mappings live in
`entity_v2.py` (outside the embedded file) and are passed in as
parameters. -/
def castStream (raw : Bool) (msgType : Option PyVal)
    (tm qm bm : List (String × String)) (m : Msg) : Except PyError CastOut :=
  if raw then .ok (.rawMsg m)
  else
    match normalizeTimestamp m with
    | .error e => .error e
    | .ok m' =>
      if msgType = some (.str "t") then .ok (.trade (projectFields tm m'))
      else if msgType = some (.str "q") then .ok (.quote (projectFields qm m'))
      else if msgType = some (.str "b") then .ok (.bar (projectFields bm m'))
      else .ok (.entity m')

/-- `handlers.get(symbol, handlers.get('*', None))`. -/
def handlerGet (d : Dict) (symbol : Key) : Option Handler :=
  match dictLookup symbol d with
  | some h => some h
  | none => dictLookup wildcardKey d

/-- What `DataStream._dispatch` does with one message: the (at most one)
handler invocation, or one of the two logging-only system kinds. -/
inductive DAction where
  | calls (hs : List (Handler × CastOut))
  | logSubscription
  | logError
  deriving DecidableEq, Repr

/-- `DataStream._dispatch(msg)`. An `.error` models an exception escaping
the dispatch (only `_cast` can raise here); `.ok (.calls hs)` lists the
handler invocations performed, with the cast message each received. -/
def dispatchRun (raw : Bool) (tm qm bm : List (String × String))
    (st : DataStreamState) (m : Msg) : Except PyError DAction :=
  let msgType := dictLookup "T" m
  let symbol : Key := dictLookup "S" m
  if msgType = some (.str "t") then
    match handlerGet st.tradeHandlers symbol with
    | some h => (castStream raw msgType tm qm bm m).map
        (fun c => .calls [(h, c)])
    | none => .ok (.calls [])
  else if msgType = some (.str "q") then
    match handlerGet st.quoteHandlers symbol with
    | some h => (castStream raw msgType tm qm bm m).map
        (fun c => .calls [(h, c)])
    | none => .ok (.calls [])
  else if msgType = some (.str "b") then
    match handlerGet st.barHandlers symbol with
    | some h => (castStream raw msgType tm qm bm m).map
        (fun c => .calls [(h, c)])
    | none => .ok (.calls [])
  else if msgType = some (.str "subscription") then .ok .logSubscription
  else if msgType = some (.str "error") then .ok .logError
  else .ok (.calls [])

/-- The wire discriminator used for a topic's data messages. -/
def topicType : Topic → String
  | .trades => "t"
  | .quotes => "q"
  | .bars => "b"

/-! ### `_connect` handshake and the supervisor loop -/

/-- `frame[0]` with Python `IndexError` on an empty list. -/
def pyIndex0 {α : Type} : List α → Except PyError α
  | [] => .error .indexError
  | a :: _ => .ok a

/-- `m[k]` with Python `KeyError` on a missing field. -/
def pyGetItem (m : Msg) (k : String) : Except PyError PyVal :=
  match dictLookup k m with
  | some v => .ok v
  | none => .error (.keyError (strKey k))

/-- The handshake check of `DataStream._connect`: unpack the first frame
and raise `ValueError('connected message not received')` unless
`msg[0]['T'] == 'success' and msg[0]['msg'] == 'connected'` (the Python
`or` short-circuits, so `msg[0]['msg']` is only read when `T` matched). -/
def connectHandshake (frame : List Msg) : Except PyError Unit :=
  match pyIndex0 frame with
  | .error e => .error e
  | .ok m0 =>
    match pyGetItem m0 "T" with
    | .error e => .error e
    | .ok t =>
      if t ≠ .str "success" then
        .error (.valueError "connected message not received")
      else
        match pyGetItem m0 "msg" with
        | .error e => .error e
        | .ok ms =>
          if ms ≠ .str "connected" then
            .error (.valueError "connected message not received")
          else .ok ()

/-- Is a finished `connect` an escaped Python `ConnectionError`? -/
def isConnectionErrorU : Except PyError Unit → Bool
  | .error (.connectionError _) => true
  | _ => false

/-- Is a recorded error a Python `TypeError`? -/
def isTypeErrorO : Option PyError → Bool
  | some (.typeError _) => true
  | _ => false

/-- How one iteration of `_run_forever`'s `while True` body ends:
a `websockets.WebSocketException` before or after `_start_ws` succeeded
(success sets `_running = True` and `retries = 0`), or any other
exception (which the `except` clause does not catch). -/
inductive Outcome where
  | wsFail
  | liveThenWsFail
  | fatal (e : PyError)
  | liveThenFatal (e : PyError)
  deriving DecidableEq, Repr

/-- How the supervisor loop ends on a finite outcome trace. -/
inductive SupResult where
  | maxRetriesExceeded
  | fatalError (e : PyError)
  | looping (retries : Nat)
  deriving DecidableEq, Repr

/-- `DataStream._run_forever`'s retry loop (lines 197-215; identical in
`TradingStream._run_forever`), run over a trace of per-iteration
outcomes with `maxRetries = int(os.environ.get('APCA_RETRY_MAX', 3))`.
Returns how many connection attempts were made and how the loop ended:
on a websocket failure `retries` increments (after resetting to zero if
the iteration reached Live) and `retries > maxRetries` raises
`ConnectionError('max retries exceeded')`; any other exception
propagates at once. -/
def runForever (maxRetries : Nat) : List Outcome → Nat → Nat × SupResult
  | [], retries => (0, .looping retries)
  | o :: os, retries =>
    match o with
    | .wsFail =>
      if retries + 1 > maxRetries then (1, .maxRetriesExceeded)
      else
        match runForever maxRetries os (retries + 1) with
        | (n, res) => (n + 1, res)
    | .liveThenWsFail =>
      if 1 > maxRetries then (1, .maxRetriesExceeded)
      else
        match runForever maxRetries os 1 with
        | (n, res) => (n + 1, res)
    | .fatal e => (1, .fatalError e)
    | .liveThenFatal e => (1, .fatalError e)

/-! ### Dict lemmas -/

theorem dictLookup_insert {K V : Type} [DecidableEq K] (k k' : K) (v : V)
    (d : List (K × V)) :
    dictLookup k (dictInsert k' v d) =
      if k = k' then some v else dictLookup k d := by
  induction d with
  | nil => simp [dictInsert, dictLookup]
  | cons hd tl ih =>
    obtain ⟨a, b⟩ := hd
    by_cases h1 : a = k'
    · subst h1
      by_cases h2 : k = a <;> simp [dictInsert, dictLookup, h2]
    · by_cases h2 : k = a
      · subst h2
        simp [dictInsert, dictLookup, h1, Ne.symm h1]
      · simp [dictInsert, dictLookup, h1, h2, ih]

theorem mem_dictKeys_iff {K V : Type} [DecidableEq K] (k : K)
    (d : List (K × V)) :
    k ∈ dictKeys d ↔ dictLookup k d ≠ none := by
  induction d with
  | nil => simp [dictKeys, dictLookup]
  | cons hd tl ih =>
    obtain ⟨a, b⟩ := hd
    by_cases h : k = a
    · subst h; simp [dictKeys, dictLookup]
    · simp [dictKeys, dictLookup, h, Ne.symm h] at ih ⊢
      exact ih

theorem dictRemove_eq_none_iff {K V : Type} [DecidableEq K] (k : K)
    (d : List (K × V)) :
    dictRemove k d = none ↔ dictLookup k d = none := by
  induction d with
  | nil => simp [dictRemove, dictLookup]
  | cons hd tl ih =>
    obtain ⟨a, b⟩ := hd
    by_cases h : a = k
    · subst h; simp [dictRemove, dictLookup]
    · simp only [dictRemove, dictLookup, if_neg h, if_neg (Ne.symm h)]
      cases hr : dictRemove k tl with
      | none => simp [hr] at ih; simp [ih]
      | some rest' =>
        simp [hr] at ih
        simp [ih]

theorem dictRemove_sublist {K V : Type} [DecidableEq K] (k : K)
    (d d' : List (K × V)) (h : dictRemove k d = some d') :
    d'.Sublist d := by
  induction d generalizing d' with
  | nil => simp [dictRemove] at h
  | cons hd tl ih =>
    obtain ⟨a, b⟩ := hd
    by_cases ha : a = k
    · subst ha
      simp [dictRemove] at h
      subst h
      exact List.sublist_cons_self _ _
    · simp only [dictRemove, if_neg ha] at h
      cases hr : dictRemove k tl with
      | none => simp [hr] at h
      | some rest' =>
        simp [hr] at h
        subst h
        exact List.Sublist.cons₂ _ (ih rest' hr)

theorem dictRemove_nodup {K V : Type} [DecidableEq K] (k : K)
    (d d' : List (K × V)) (hnd : NodupKeys d) (h : dictRemove k d = some d') :
    NodupKeys d' :=
  ((dictRemove_sublist k d d' h).map Prod.fst).nodup hnd

theorem dictLookup_remove_ne {K V : Type} [DecidableEq K] (k k' : K)
    (hne : k ≠ k') (d d' : List (K × V)) (h : dictRemove k' d = some d') :
    dictLookup k d' = dictLookup k d := by
  induction d generalizing d' with
  | nil => simp [dictRemove] at h
  | cons hd tl ih =>
    obtain ⟨a, b⟩ := hd
    by_cases ha : a = k'
    · subst ha
      simp [dictRemove] at h
      subst h
      simp [dictLookup, fun hh : k = a => hne hh]
    · simp only [dictRemove, if_neg ha] at h
      cases hr : dictRemove k' tl with
      | none => simp [hr] at h
      | some rest' =>
        simp [hr] at h
        subst h
        by_cases hk : k = a <;> simp [dictLookup, hk, ih rest' hr]

theorem dictLookup_remove_self {K V : Type} [DecidableEq K] (k : K)
    (d d' : List (K × V)) (hnd : NodupKeys d) (h : dictRemove k d = some d') :
    dictLookup k d' = none := by
  induction d generalizing d' with
  | nil => simp [dictRemove] at h
  | cons hd tl ih =>
    obtain ⟨a, b⟩ := hd
    have hnd' : NodupKeys tl := (List.nodup_cons.mp hnd).2
    by_cases ha : a = k
    · subst ha
      simp [dictRemove] at h
      subst h
      have : a ∉ dictKeys tl := (List.nodup_cons.mp hnd).1
      rw [mem_dictKeys_iff] at this
      simpa using this
    · simp only [dictRemove, if_neg ha] at h
      cases hr : dictRemove k tl with
      | none => simp [hr] at h
      | some rest' =>
        simp [hr] at h
        subst h
        simp [dictLookup, ih rest' hnd' hr]
        exact fun hh => ha hh.symm

theorem dictLookup_none_remove {K V : Type} [DecidableEq K] (k k' : K)
    (d d' : List (K × V)) (h : dictRemove k' d = some d')
    (hk : dictLookup k d = none) : dictLookup k d' = none := by
  by_cases hne : k = k'
  · subst hne
    rw [← dictRemove_eq_none_iff] at hk
    rw [hk] at h
    exact absurd h (by simp)
  · rw [dictLookup_remove_ne k k' hne d d' h]
    exact hk

theorem mem_dictKeys_insert {K V : Type} [DecidableEq K] (k k' : K) (v : V)
    (d : List (K × V)) :
    k ∈ dictKeys (dictInsert k' v d) ↔ k = k' ∨ k ∈ dictKeys d := by
  rw [mem_dictKeys_iff, mem_dictKeys_iff, dictLookup_insert]
  by_cases h : k = k' <;> simp [h]

theorem dictInsert_nodup {K V : Type} [DecidableEq K] (k : K) (v : V)
    (d : List (K × V)) (hnd : NodupKeys d) : NodupKeys (dictInsert k v d) := by
  induction d with
  | nil => simp [dictInsert, NodupKeys, dictKeys]
  | cons hd tl ih =>
    obtain ⟨a, b⟩ := hd
    have hmem : a ∉ dictKeys tl := (List.nodup_cons.mp hnd).1
    have hnd' : NodupKeys tl := (List.nodup_cons.mp hnd).2
    by_cases ha : a = k
    · subst ha
      simpa [dictInsert, NodupKeys, dictKeys] using hnd
    · have := ih hnd'
      simp only [dictInsert, if_neg ha]
      refine List.nodup_cons.mpr ⟨?_, this⟩
      intro hcon
      rcases (mem_dictKeys_insert a k v tl).mp hcon with h | h
      · exact ha h
      · exact hmem h

/-! ### Registry fold lemmas -/

theorem strKey_mem_map (k : String) (l : List String) :
    strKey k ∈ l.map strKey ↔ k ∈ l := by
  simp [strKey, List.mem_map]

theorem subFold_lookup (h : Handler) (symbols : List String) (d : Dict)
    (kk : Key) :
    dictLookup kk (subFold h symbols d) =
      if kk ∈ symbols.map strKey then some h else dictLookup kk d := by
  induction symbols generalizing d with
  | nil => simp [subFold]
  | cons s rest ih =>
    simp only [subFold]
    rw [ih]
    by_cases h1 : kk ∈ rest.map strKey
    · simp [h1]
    · by_cases h2 : kk = strKey s
      · simp [h1, h2, dictLookup_insert]
      · simp [h1, h2, dictLookup_insert]

theorem subFold_nodup (h : Handler) (symbols : List String) (d : Dict)
    (hnd : NodupKeys d) : NodupKeys (subFold h symbols d) := by
  induction symbols generalizing d with
  | nil => exact hnd
  | cons s rest ih => exact ih _ (dictInsert_nodup _ _ _ hnd)

theorem delLoopEv_cons_none (d : Dict) (s : String) (rest : List String)
    (hrem : dictRemove (strKey s) d = none) :
    delLoopEv d (s :: rest) = (d, [], some (.keyError (strKey s))) := by
  simp [delLoopEv, hrem]

theorem delLoopEv_cons_some (d d1 : Dict) (s : String) (rest : List String)
    (hrem : dictRemove (strKey s) d = some d1) :
    delLoopEv d (s :: rest) =
      ((delLoopEv d1 rest).1,
        UEvent.removed (strKey s) :: (delLoopEv d1 rest).2.1,
        (delLoopEv d1 rest).2.2) := by
  rcases h : delLoopEv d1 rest with ⟨d2, evs2, err⟩
  simp [delLoopEv, hrem, h]

theorem delLoopEv_nodup (symbols : List String) (d d' : Dict)
    (evs : List UEvent) (err : Option PyError) (hnd : NodupKeys d)
    (h : delLoopEv d symbols = (d', evs, err)) : NodupKeys d' := by
  induction symbols generalizing d d' evs err with
  | nil =>
    simp [delLoopEv] at h
    rw [← h.1]
    exact hnd
  | cons s rest ih =>
    cases hrem : dictRemove (strKey s) d with
    | none =>
      rw [delLoopEv_cons_none d s rest hrem] at h
      simp at h
      rw [← h.1]
      exact hnd
    | some d1 =>
      rw [delLoopEv_cons_some d d1 s rest hrem] at h
      rcases hrec : delLoopEv d1 rest with ⟨d2, evs2, err2⟩
      rw [hrec] at h
      simp at h
      rw [← h.1]
      exact ih d1 d2 evs2 err2 (dictRemove_nodup _ _ _ hnd hrem) hrec

theorem delLoopEv_lookup (symbols : List String) (d d' : Dict)
    (evs : List UEvent) (hnd : NodupKeys d)
    (h : delLoopEv d symbols = (d', evs, none)) (kk : Key) :
    dictLookup kk d' =
      if kk ∈ symbols.map strKey then none else dictLookup kk d := by
  induction symbols generalizing d d' evs with
  | nil =>
    simp [delLoopEv] at h
    simp [← h.1]
  | cons s rest ih =>
    cases hrem : dictRemove (strKey s) d with
    | none =>
      rw [delLoopEv_cons_none d s rest hrem] at h
      simp at h
    | some d1 =>
      rw [delLoopEv_cons_some d d1 s rest hrem] at h
      rcases hrec : delLoopEv d1 rest with ⟨d2, evs2, err2⟩
      rw [hrec] at h
      simp at h
      obtain ⟨hd2, hevs, herr⟩ := h
      have hnd1 := dictRemove_nodup _ _ _ hnd hrem
      rw [herr] at hrec
      have hih := ih d1 d2 evs2 hnd1 hrec
      rw [← hd2]
      by_cases h2 : kk = strKey s
      · have hnone : dictLookup kk d1 = none := by
          rw [h2]
          exact dictLookup_remove_self _ _ _ hnd hrem
        rw [hih, hnone]
        by_cases h1 : kk ∈ rest.map strKey <;> simp [h1, h2]
      · have heq : dictLookup kk d1 = dictLookup kk d :=
          dictLookup_remove_ne _ _ h2 _ _ hrem
        rw [hih, heq]
        by_cases h1 : kk ∈ rest.map strKey <;>
          simp [h1, h2, List.mem_cons]

theorem delLoopEv_err_eq (symbols : List String) (d e : Dict)
    (hndd : NodupKeys d) (hnde : NodupKeys e)
    (hl : ∀ s ∈ symbols,
        dictLookup (strKey s) d = dictLookup (strKey s) e) :
    (delLoopEv d symbols).2.2 = (delLoopEv e symbols).2.2 := by
  induction symbols generalizing d e with
  | nil => simp [delLoopEv]
  | cons s rest ih =>
    have hs : dictLookup (strKey s) d = dictLookup (strKey s) e :=
      hl s (List.mem_cons_self s rest)
    cases hremd : dictRemove (strKey s) d with
    | none =>
      have h1 : dictLookup (strKey s) d = none :=
        (dictRemove_eq_none_iff _ _).mp hremd
      have h2 : dictRemove (strKey s) e = none :=
        (dictRemove_eq_none_iff _ _).mpr (by rw [← hs]; exact h1)
      rw [delLoopEv_cons_none d s rest hremd, delLoopEv_cons_none e s rest h2]
    | some d1 =>
      have hld : dictLookup (strKey s) d ≠ none := by
        intro hc
        rw [← dictRemove_eq_none_iff] at hc
        rw [hc] at hremd
        cases hremd
      have hle : dictLookup (strKey s) e ≠ none := by
        rw [← hs]; exact hld
      cases hreme : dictRemove (strKey s) e with
      | none => exact absurd ((dictRemove_eq_none_iff _ _).mp hreme) hle
      | some e1 =>
        have hnd1 := dictRemove_nodup _ _ _ hndd hremd
        have hne1 := dictRemove_nodup _ _ _ hnde hreme
        have hl1 : ∀ s' ∈ rest,
            dictLookup (strKey s') d1 = dictLookup (strKey s') e1 := by
          intro s' hmem
          by_cases hss : strKey s' = strKey s
          · rw [hss, dictLookup_remove_self _ _ _ hndd hremd,
              dictLookup_remove_self _ _ _ hnde hreme]
          · rw [dictLookup_remove_ne _ _ hss _ _ hremd,
              dictLookup_remove_ne _ _ hss _ _ hreme]
            exact hl s' (List.mem_cons_of_mem _ hmem)
        rw [delLoopEv_cons_some d d1 s rest hremd,
          delLoopEv_cons_some e e1 s rest hreme]
        simpa using ih d1 e1 hnd1 hne1 hl1

theorem delLoopEv_append_ok (d1 : Dict) (l2 : List String) :
    ∀ (l1 : List String) (d : Dict) (e1 : List UEvent),
    delLoopEv d l1 = (d1, e1, none) →
    delLoopEv d (l1 ++ l2) =
      ((delLoopEv d1 l2).1, e1 ++ (delLoopEv d1 l2).2.1,
        (delLoopEv d1 l2).2.2) := by
  intro l1
  induction l1 with
  | nil =>
    intro d e1 h
    simp [delLoopEv] at h
    obtain ⟨hd, he⟩ := h
    subst hd
    subst he
    rcases h2 : delLoopEv d l2 with ⟨d2, ee, rr⟩
    simpa using h2
  | cons s rest ih =>
    intro d e1 h
    cases hrem : dictRemove (strKey s) d with
    | none =>
      rw [delLoopEv_cons_none d s rest hrem] at h
      simp at h
    | some d1' =>
      rw [delLoopEv_cons_some d d1' s rest hrem] at h
      rcases hrec : delLoopEv d1' rest with ⟨dd, ee, rr⟩
      rw [hrec] at h
      simp at h
      obtain ⟨hdd, hee, hrr⟩ := h
      rw [hdd, hrr] at hrec
      rw [List.cons_append, delLoopEv_cons_some d d1' s (rest ++ l2) hrem,
        ih d1' ee hrec]
      simp [← hee]

theorem delLoopEv_events (symbols : List String) (d d' : Dict)
    (evs : List UEvent) (err : Option PyError)
    (h : delLoopEv d symbols = (d', evs, err)) :
    ∀ ev ∈ evs, ∃ k, ev = UEvent.removed k := by
  induction symbols generalizing d d' evs err with
  | nil =>
    simp [delLoopEv] at h
    rw [h.2.1]
    simp
  | cons s rest ih =>
    cases hrem : dictRemove (strKey s) d with
    | none =>
      rw [delLoopEv_cons_none d s rest hrem] at h
      simp at h
      rw [h.2.1]
      simp
    | some d1 =>
      rw [delLoopEv_cons_some d d1 s rest hrem] at h
      rcases hrec : delLoopEv d1 rest with ⟨d2, evs2, err2⟩
      rw [hrec] at h
      simp at h
      rw [← h.2.1]
      intro ev hev
      rcases List.mem_cons.mp hev with rfl | hmem
      · exact ⟨strKey s, rfl⟩
      · exact ih d1 d2 evs2 err2 hrec ev hmem

theorem delLoopEv_fail_of_missing (symbols : List String) (d : Dict)
    (hmiss : ∃ u ∈ symbols, dictLookup (strKey u) d = none) :
    ∃ k, (delLoopEv d symbols).2.2 = some (.keyError k) := by
  induction symbols generalizing d with
  | nil => simp at hmiss
  | cons s rest ih =>
    obtain ⟨u, hu, hlu⟩ := hmiss
    cases hrem : dictRemove (strKey s) d with
    | none =>
      exact ⟨strKey s, by rw [delLoopEv_cons_none d s rest hrem]⟩
    | some d1 =>
      rcases List.mem_cons.mp hu with rfl | hur
      · have hc : dictRemove (strKey u) d = none :=
          (dictRemove_eq_none_iff _ _).mpr hlu
        rw [hc] at hrem
        cases hrem
      · have hlu1 : dictLookup (strKey u) d1 = none :=
          dictLookup_none_remove _ _ _ _ hrem hlu
        obtain ⟨k, hk⟩ := ih d1 ⟨u, hur, hlu1⟩
        refine ⟨k, ?_⟩
        rw [delLoopEv_cons_some d d1 s rest hrem]
        simpa using hk

/-! ### Operation-level lemmas -/

theorem regOf_setReg (t t' : Topic) (d : Dict) (st : DataStreamState) :
    regOf t (setReg t' d st) = if t = t' then d else regOf t st := by
  cases t <;> cases t' <;> simp [regOf, setReg]

theorem regOf_nodup (st : DataStreamState) (hnd : RegNodup st) (t : Topic) :
    NodupKeys (regOf t st) := by
  cases t
  · exact hnd.1
  · exact hnd.2.1
  · exact hnd.2.2

theorem setReg_nodup (t : Topic) (d : Dict) (st : DataStreamState)
    (hnd : RegNodup st) (hd : NodupKeys d) : RegNodup (setReg t d st) := by
  obtain ⟨h1, h2, h3⟩ := hnd
  cases t <;> exact ⟨by simpa [setReg], by simpa [setReg], by simpa [setReg]⟩

theorem applyOp_lookup (st st' : DataStreamState) (op : Op)
    (hnd : RegNodup st) (hok : applyOp st op = .ok st') (t : Topic)
    (kk : Key) :
    dictLookup kk (regOf t st') =
      if t = topicOf op ∧ kk ∈ (symsOf op).map strKey then opWrite op
      else dictLookup kk (regOf t st) := by
  cases op with
  | sub t1 h symbols =>
    simp only [applyOp, subscribeTopicRun] at hok
    cases hc : ensureCoroutine h with
    | error e =>
      rw [hc] at hok
      simp at hok
    | ok u =>
      rw [hc] at hok
      simp at hok
      rw [← hok, regOf_setReg]
      by_cases ht : t = t1
      · subst ht
        simp [topicOf, symsOf, opWrite, subFold_lookup]
      · simp [ht, topicOf]
  | unsub t1 symbols =>
    simp only [applyOp] at hok
    rcases hdel : delLoopEv (regOf t1 st) symbols with ⟨d', evs, err⟩
    rw [hdel] at hok
    cases err with
    | some e => simp at hok
    | none =>
      simp at hok
      rw [← hok, regOf_setReg]
      by_cases ht : t = t1
      · subst ht
        have hlk := delLoopEv_lookup symbols _ d' evs
          (regOf_nodup st hnd t) hdel kk
        simp [topicOf, symsOf, opWrite, hlk]
      · simp [ht, topicOf]

theorem applyOp_nodup (st st' : DataStreamState) (op : Op)
    (hnd : RegNodup st) (hok : applyOp st op = .ok st') : RegNodup st' := by
  cases op with
  | sub t1 h symbols =>
    simp only [applyOp, subscribeTopicRun] at hok
    cases hc : ensureCoroutine h with
    | error e =>
      rw [hc] at hok
      simp at hok
    | ok u =>
      rw [hc] at hok
      simp at hok
      rw [← hok]
      exact setReg_nodup _ _ _ hnd
        (subFold_nodup _ _ _ (regOf_nodup st hnd t1))
  | unsub t1 symbols =>
    simp only [applyOp] at hok
    rcases hdel : delLoopEv (regOf t1 st) symbols with ⟨d', evs, err⟩
    rw [hdel] at hok
    cases err with
    | some e => simp at hok
    | none =>
      simp at hok
      rw [← hok]
      exact setReg_nodup _ _ _ hnd
        (delLoopEv_nodup symbols _ d' evs none (regOf_nodup st hnd t1) hdel)

theorem mem_touched (op : Op) (t : Topic) (s : String) :
    (t, s) ∈ touched op ↔ t = topicOf op ∧ s ∈ symsOf op := by
  simp only [touched, List.mem_map, Prod.mk.injEq]
  constructor
  · rintro ⟨a, ha, rfl, rfl⟩
    exact ⟨rfl, ha⟩
  · rintro ⟨rfl, hs⟩
    exact ⟨s, hs, rfl, rfl⟩

theorem lwStep_applyOp (op : Op) (t : Topic) (k : String)
    (acc : Option Handler) :
    lwStep t k op acc =
      if t = topicOf op ∧ strKey k ∈ (symsOf op).map strKey then opWrite op
      else acc := by
  cases op with
  | sub t1 h symbols =>
    simp only [lwStep, topicOf, symsOf, opWrite, strKey_mem_map]
    by_cases h1 : t1 = t
    · subst h1; simp
    · have h1' : ¬t = t1 := fun hh => h1 hh.symm
      simp [h1, h1']
  | unsub t1 symbols =>
    simp only [lwStep, topicOf, symsOf, opWrite, strKey_mem_map]
    by_cases h1 : t1 = t
    · subst h1; simp
    · have h1' : ¬t = t1 := fun hh => h1 hh.symm
      simp [h1, h1']

theorem applySeq_nodup (ops : List Op) (st st' : DataStreamState)
    (hnd : RegNodup st) (hok : applySeq st ops = .ok st') : RegNodup st' := by
  induction ops generalizing st with
  | nil =>
    simp [applySeq] at hok
    rw [← hok]
    exact hnd
  | cons op ops ih =>
    simp only [applySeq] at hok
    cases hop : applyOp st op with
    | error e =>
      rw [hop] at hok
      simp at hok
    | ok st1 =>
      rw [hop] at hok
      exact ih st1 (applyOp_nodup st st1 op hnd hop) hok

theorem applySeq_lookup (ops : List Op) (st st' : DataStreamState)
    (hnd : RegNodup st) (hok : applySeq st ops = .ok st') (t : Topic)
    (k : String) :
    dictLookup (strKey k) (regOf t st') =
      lastWriteFrom t k ops (dictLookup (strKey k) (regOf t st)) := by
  induction ops generalizing st with
  | nil =>
    simp [applySeq] at hok
    rw [← hok]
    simp [lastWriteFrom]
  | cons op ops ih =>
    simp only [applySeq] at hok
    cases hop : applyOp st op with
    | error e =>
      rw [hop] at hok
      simp at hok
    | ok st1 =>
      rw [hop] at hok
      rw [ih st1 (applyOp_nodup st st1 op hnd hop) hok]
      simp only [lastWriteFrom]
      congr 1
      rw [applyOp_lookup st st1 op hnd hop t (strKey k), lwStep_applyOp]

theorem applyOp_ok_transfer (op : Op) (st1 st2 s1 : DataStreamState)
    (hnd1 : RegNodup st1) (hnd2 : RegNodup st2)
    (hl : ∀ s ∈ symsOf op,
        dictLookup (strKey s) (regOf (topicOf op) st1) =
          dictLookup (strKey s) (regOf (topicOf op) st2))
    (hok : applyOp st1 op = .ok s1) :
    ∃ s2, applyOp st2 op = .ok s2 := by
  cases op with
  | sub t h symbols =>
    simp only [applyOp, subscribeTopicRun] at hok ⊢
    cases hc : ensureCoroutine h with
    | error e =>
      rw [hc] at hok
      simp at hok
    | ok u =>
      exact ⟨_, rfl⟩
  | unsub t symbols =>
    simp only [applyOp] at hok ⊢
    have herr := delLoopEv_err_eq symbols (regOf t st1) (regOf t st2)
      (regOf_nodup st1 hnd1 t) (regOf_nodup st2 hnd2 t) hl
    rcases h1 : delLoopEv (regOf t st1) symbols with ⟨d1, e1, r1⟩
    rcases h2 : delLoopEv (regOf t st2) symbols with ⟨d2, e2, r2⟩
    rw [h1] at hok
    rw [h1, h2] at herr
    simp at herr
    cases r1 with
    | some e =>
      simp at hok
    | none =>
      rw [← herr]
      exact ⟨_, rfl⟩

theorem applyOp_comm (op1 op2 : Op) (st s1 s12 : DataStreamState)
    (hnd : RegNodup st) (hdisj : OpDisjoint op1 op2)
    (h1 : applyOp st op1 = .ok s1) (h2 : applyOp s1 op2 = .ok s12) :
    ∃ s2 s21, applyOp st op2 = .ok s2 ∧ applyOp s2 op1 = .ok s21 ∧
      ∀ (t : Topic) (kk : Key),
        dictLookup kk (regOf t s12) = dictLookup kk (regOf t s21) := by
  have hnds1 : RegNodup s1 := applyOp_nodup st s1 op1 hnd h1
  have hnds12 : RegNodup s12 := applyOp_nodup s1 s12 op2 hnds1 h2
  have hnotouch2 : ∀ s ∈ symsOf op2, (topicOf op2, s) ∉ touched op1 := by
    intro s hs hc
    exact hdisj _ hc ((mem_touched op2 (topicOf op2) s).mpr ⟨rfl, hs⟩)
  have hnotouch1 : ∀ s ∈ symsOf op1, (topicOf op1, s) ∉ touched op2 := by
    intro s hs hc
    exact hdisj ((topicOf op1, s)) ((mem_touched op1 (topicOf op1) s).mpr
      ⟨rfl, hs⟩) hc
  have hl2 : ∀ s ∈ symsOf op2,
      dictLookup (strKey s) (regOf (topicOf op2) s1) =
        dictLookup (strKey s) (regOf (topicOf op2) st) := by
    intro s hs
    rw [applyOp_lookup st s1 op1 hnd h1 (topicOf op2) (strKey s)]
    have : ¬(topicOf op2 = topicOf op1 ∧
        strKey s ∈ (symsOf op1).map strKey) := by
      rintro ⟨hteq, hmem⟩
      exact hnotouch2 s hs
        ((mem_touched op1 (topicOf op2) s).mpr
          ⟨hteq, (strKey_mem_map s (symsOf op1)).mp hmem⟩)
    rw [if_neg this]
  obtain ⟨s2, hs2⟩ := applyOp_ok_transfer op2 s1 st s12 hnds1 hnd hl2 h2
  have hnds2 : RegNodup s2 := applyOp_nodup st s2 op2 hnd hs2
  have hl1 : ∀ s ∈ symsOf op1,
      dictLookup (strKey s) (regOf (topicOf op1) st) =
        dictLookup (strKey s) (regOf (topicOf op1) s2) := by
    intro s hs
    rw [applyOp_lookup st s2 op2 hnd hs2 (topicOf op1) (strKey s)]
    have : ¬(topicOf op1 = topicOf op2 ∧
        strKey s ∈ (symsOf op2).map strKey) := by
      rintro ⟨hteq, hmem⟩
      exact hnotouch1 s hs
        ((mem_touched op2 (topicOf op1) s).mpr
          ⟨hteq, (strKey_mem_map s (symsOf op2)).mp hmem⟩)
    rw [if_neg this]
  obtain ⟨s21, hs21⟩ := applyOp_ok_transfer op1 st s2 s1 hnd hnds2 hl1 h1
  refine ⟨s2, s21, hs2, hs21, ?_⟩
  intro t kk
  have hnc : ¬((t = topicOf op1 ∧ kk ∈ (symsOf op1).map strKey) ∧
      (t = topicOf op2 ∧ kk ∈ (symsOf op2).map strKey)) := by
    rintro ⟨⟨ht1, hm1⟩, ⟨ht2, hm2⟩⟩
    obtain ⟨a1, ha1, hka1⟩ := List.mem_map.mp hm1
    obtain ⟨a2, ha2, hka2⟩ := List.mem_map.mp hm2
    have haa : a1 = a2 := by
      have := hka1.trans hka2.symm
      simpa [strKey] using this
    subst haa
    exact hdisj (t, a1)
      ((mem_touched op1 t a1).mpr ⟨ht1, ha1⟩)
      ((mem_touched op2 t a1).mpr ⟨ht2, ha2⟩)
  rw [applyOp_lookup s1 s12 op2 hnds1 h2 t kk,
    applyOp_lookup st s1 op1 hnd h1 t kk,
    applyOp_lookup s2 s21 op1 hnds2 hs21 t kk,
    applyOp_lookup st s2 op2 hnd hs2 t kk]
  by_cases hc1 : t = topicOf op1 ∧ kk ∈ (symsOf op1).map strKey <;>
    by_cases hc2 : t = topicOf op2 ∧ kk ∈ (symsOf op2).map strKey
  · exact absurd ⟨hc1, hc2⟩ hnc
  · simp only [if_pos hc1, if_neg hc2]
  · simp only [if_neg hc1, if_pos hc2]
  · simp only [if_neg hc1, if_neg hc2]

theorem subscribeAllMsg_topicKeys (st : DataStreamState) (w : WireSub)
    (h : subscribeAllMsg st = some w) (t : Topic) :
    topicKeys t w = dictKeys (regOf t st) := by
  unfold subscribeAllMsg at h
  by_cases hc : st.tradeHandlers ≠ [] ∨ st.quoteHandlers ≠ [] ∨
      st.barHandlers ≠ []
  · rw [if_pos hc] at h
    simp at h
    cases t <;> simp [← h, topicKeys, regOf]
  · rw [if_neg hc] at h
    cases h

/-! ### Claim theorems -/

/-- C1: with the default maximum of 3 retries, three consecutive
transport failures are each retried (the loop keeps going after three
attempts), a fourth consecutive transport failure raises
`ConnectionError("max retries exceeded")` after exactly four connection
attempts, with no fifth attempt regardless of what would come next; and
an iteration that reaches Live resets the retry counter, so the
supervisor's behaviour afterwards is independent of the failure count
accumulated before that success. -/
theorem c1_retry_ceiling_and_reset (rest : List Outcome) (r : Nat) :
    runForever 3 [.wsFail, .wsFail, .wsFail] 0 = (3, .looping 3)
    ∧ runForever 3
        (.wsFail :: .wsFail :: .wsFail :: .wsFail :: rest) 0 =
        (4, .maxRetriesExceeded)
    ∧ runForever 3 (.liveThenWsFail :: rest) r =
        runForever 3 (.liveThenWsFail :: rest) 0 := by
  refine ⟨rfl, rfl, rfl⟩

/-- C4 (counterexample): registering a non-coroutine handler raises
`ValueError`, not `TypeError` as the claim states. -/
theorem c4_typeerror_counterexample :
    subscribeTopicRun { hid := 0, isCoroutine := false } ["AAPL"] [] =
      ([], some (.valueError "handler must be a coroutine function"))
    ∧ isTypeErrorO
        (subscribeTopicRun { hid := 0, isCoroutine := false }
          ["AAPL"] []).2 = false := by
  exact ⟨rfl, rfl⟩

/-- C4 (amended): for every subscribe call (any topic kind, including
trade updates), a handler that is not an asynchronous callable is
rejected synchronously with `ValueError` before any registry mutation
(the registry is returned unchanged), so such a handler never enters a
registry read by the dispatch loop. -/
theorem c4_noncoroutine_rejected (h : Handler) (symbols : List String)
    (d : Dict) (cur : Option Handler) (hnc : h.isCoroutine = false) :
    subscribeTopicRun h symbols d =
      (d, some (.valueError "handler must be a coroutine function"))
    ∧ subscribeTradeUpdates h cur =
      (cur, some (.valueError "handler must be a coroutine function")) := by
  unfold subscribeTopicRun subscribeTradeUpdates ensureCoroutine
  rw [hnc]
  exact ⟨rfl, rfl⟩

theorem c4_noncoroutine_rejected_witness :
    subscribeTopicRun { hid := 7, isCoroutine := false } ["X"] [] =
      ([], some (.valueError "handler must be a coroutine function"))
    ∧ subscribeTradeUpdates { hid := 7, isCoroutine := false } none =
      (none, some (.valueError "handler must be a coroutine function")) :=
  c4_noncoroutine_rejected { hid := 7, isCoroutine := false } ["X"] [] none
    rfl

/-- C5 (counterexample): a malformed handshake acknowledgment makes
`_connect` raise `ValueError('connected message not received')`, not
`ConnectionError` as the claim states. -/
theorem c5_connectionerror_counterexample :
    connectHandshake [[("T", .str "error"), ("msg", .str "oops")]] =
      .error (.valueError "connected message not received")
    ∧ isConnectionErrorU
        (connectHandshake
          [[("T", .str "error"), ("msg", .str "oops")]]) = false := by
  exact ⟨rfl, rfl⟩

/-- C5 (amended): if the first element of the handshake frame has `T`
and `msg` fields but they are not `success` / `connected`, `connect`
fails with `ValueError('connected message not received')`; and since
that is not a `websockets.WebSocketException`, the supervisor loop
propagates it at once after a single connection attempt instead of
retrying, whatever the retry counter and ceiling are. -/
theorem c5_handshake_valueerror_fatal (frame : List Msg) (m0 : Msg)
    (t ms : PyVal) (maxR r : Nat) (rest : List Outcome)
    (h0 : pyIndex0 frame = .ok m0)
    (hT : pyGetItem m0 "T" = .ok t)
    (hM : pyGetItem m0 "msg" = .ok ms)
    (hbad : t ≠ .str "success" ∨ ms ≠ .str "connected") :
    connectHandshake frame =
      .error (.valueError "connected message not received")
    ∧ runForever maxR
        (.fatal (.valueError "connected message not received") :: rest) r =
      (1, .fatalError (.valueError "connected message not received")) := by
  constructor
  · rcases hbad with hb | hb
    · simp [connectHandshake, h0, hT, hb]
    · by_cases ht : t = .str "success"
      · simp [connectHandshake, h0, hT, hM, ht, hb]
      · simp [connectHandshake, h0, hT, ht]
  · rfl

theorem c5_handshake_valueerror_fatal_witness :
    connectHandshake [[("T", .str "failed"), ("msg", .str "nope")]] =
      .error (.valueError "connected message not received")
    ∧ runForever 3
        (.fatal (.valueError "connected message not received") :: []) 0 =
      (1, .fatalError (.valueError "connected message not received")) :=
  c5_handshake_valueerror_fatal
    [[("T", .str "failed"), ("msg", .str "nope")]]
    [("T", .str "failed"), ("msg", .str "nope")]
    (.str "failed") (.str "nope") 3 0 [] rfl rfl rfl
    (Or.inl (by decide))

/-- C7: when a message carries its `t` field as a msgpack
`(seconds, nanoseconds)` timestamp, `_cast`'s typed conversion replaces
it with the single integer `seconds * 10^9 + nanoseconds` exactly; in
particular `(seconds = 5, nanoseconds = 500)` becomes exactly
`5000000500`. -/
theorem c7_timestamp_normalization (m : Msg) (s : Int) (n : Nat)
    (hts : dictLookup "t" m = some (.ts s n)) :
    normalizeTimestamp m =
      .ok (dictInsert "t" (.int (s * 1000000000 + (n : Int))) m)
    ∧ dictLookup "t"
        (dictInsert "t" (.int (s * 1000000000 + (n : Int))) m) =
      some (.int (s * 1000000000 + (n : Int)))
    ∧ castStream false (some (.str "t")) [("t", "t")] [] []
        [("t", .ts 5 500)] = .ok (.trade [("t", .int 5000000500)]) := by
  refine ⟨?_, ?_, rfl⟩
  · simp [normalizeTimestamp, tsAttrNanos, hts]
  · rw [dictLookup_insert]
    simp

theorem c7_timestamp_normalization_witness :
    normalizeTimestamp [("t", PyVal.ts 5 500)] =
      .ok (dictInsert "t"
        (.int (5 * 1000000000 + ((500 : Nat) : Int)))
        [("t", PyVal.ts 5 500)]) :=
  (c7_timestamp_normalization [("t", PyVal.ts 5 500)] 5 500 rfl).1

/-- C3: for a data message of trade, quote or bar type whose symbol has
both an exact-symbol handler and a wildcard handler registered for that
topic kind, dispatch performs exactly one handler invocation, namely of
the exact-symbol handler, and the wildcard handler (when distinct) is
not among the invocations. -/
theorem c3_dispatch_precedence (raw : Bool)
    (tm qm bm : List (String × String)) (st : DataStreamState) (m : Msg)
    (tp : Topic) (sym : PyVal) (hx hw : Handler) (c : CastOut)
    (hT : dictLookup "T" m = some (.str (topicType tp)))
    (hS : dictLookup "S" m = some sym)
    (hex : dictLookup (some sym) (regOf tp st) = some hx)
    (hwc : dictLookup wildcardKey (regOf tp st) = some hw)
    (hcast : castStream raw (dictLookup "T" m) tm qm bm m = .ok c) :
    dispatchRun raw tm qm bm st m = .ok (.calls [(hx, c)])
    ∧ (hw ≠ hx → ∀ c', (hw, c') ∉ [(hx, c)]) := by
  constructor
  · cases tp with
    | trades =>
      simp only [topicType] at hT
      simp only [regOf] at hex
      rw [hT] at hcast
      simp [dispatchRun, hT, hS, handlerGet, hex, hcast, Except.map]
    | quotes =>
      simp only [topicType] at hT
      simp only [regOf] at hex
      rw [hT] at hcast
      simp [dispatchRun, hT, hS, handlerGet, hex, hcast, Except.map]
    | bars =>
      simp only [topicType] at hT
      simp only [regOf] at hex
      rw [hT] at hcast
      simp [dispatchRun, hT, hS, handlerGet, hex, hcast, Except.map]
  · intro hne c' hmem
    simp at hmem
    exact hne hmem.1

theorem c3_dispatch_precedence_witness :
    dispatchRun true [] [] []
      { tradeHandlers :=
          [(strKey "AAPL", { hid := 1, isCoroutine := true }),
            (wildcardKey, { hid := 2, isCoroutine := true })],
        quoteHandlers := [], barHandlers := [], running := true }
      [("T", .str "t"), ("S", .str "AAPL")] =
      .ok (.calls [({ hid := 1, isCoroutine := true },
        .rawMsg [("T", .str "t"), ("S", .str "AAPL")])]) :=
  (c3_dispatch_precedence true [] [] []
    { tradeHandlers :=
        [(strKey "AAPL", { hid := 1, isCoroutine := true }),
          (wildcardKey, { hid := 2, isCoroutine := true })],
      quoteHandlers := [], barHandlers := [], running := true }
    [("T", .str "t"), ("S", .str "AAPL")] Topic.trades (.str "AAPL")
    { hid := 1, isCoroutine := true } { hid := 2, isCoroutine := true }
    (.rawMsg [("T", .str "t"), ("S", .str "AAPL")])
    rfl rfl rfl rfl rfl).1

/-- C6: a decoded message whose type discriminator matches no registered
handler (for the three data kinds both the exact-symbol and the wildcard
lookups miss) and is neither the `subscription` kind nor the `error`
kind is silently dropped: dispatch raises no exception and performs no
handler invocation. -/
theorem c6_unmatched_dropped (raw : Bool)
    (tm qm bm : List (String × String)) (st : DataStreamState) (m : Msg)
    (ht : dictLookup "T" m = some (.str "t") →
        handlerGet st.tradeHandlers (dictLookup "S" m) = none)
    (hq : dictLookup "T" m = some (.str "q") →
        handlerGet st.quoteHandlers (dictLookup "S" m) = none)
    (hb : dictLookup "T" m = some (.str "b") →
        handlerGet st.barHandlers (dictLookup "S" m) = none)
    (hsub : dictLookup "T" m ≠ some (.str "subscription"))
    (herr : dictLookup "T" m ≠ some (.str "error")) :
    dispatchRun raw tm qm bm st m = .ok (.calls []) := by
  by_cases h1 : dictLookup "T" m = some (.str "t")
  · simp [dispatchRun, h1, ht h1]
  · by_cases h2 : dictLookup "T" m = some (.str "q")
    · simp [dispatchRun, h1, h2, hq h2]
    · by_cases h3 : dictLookup "T" m = some (.str "b")
      · simp [dispatchRun, h1, h2, h3, hb h3]
      · simp [dispatchRun, h1, h2, h3, hsub, herr]

theorem c6_unmatched_dropped_witness :
    dispatchRun false [] [] [] emptyDataStream [("T", .str "x")] =
      .ok (.calls []) :=
  c6_unmatched_dropped false [] [] [] emptyDataStream [("T", .str "x")]
    (by decide) (by decide) (by decide) (by decide) (by decide)

/-- C9: a data message of trade, quote or bar type carrying no symbol
field is not dropped: `msg.get('S')` is `None`, and when the registry
has no entry under the key `None` but has a wildcard handler for that
topic kind, dispatch invokes the wildcard handler with the (cast)
message. -/
theorem c9_wildcard_no_symbol (raw : Bool)
    (tm qm bm : List (String × String)) (st : DataStreamState) (m : Msg)
    (tp : Topic) (hw : Handler) (c : CastOut)
    (hT : dictLookup "T" m = some (.str (topicType tp)))
    (hS : dictLookup "S" m = none)
    (hnone : dictLookup (none : Key) (regOf tp st) = none)
    (hwc : dictLookup wildcardKey (regOf tp st) = some hw)
    (hcast : castStream raw (dictLookup "T" m) tm qm bm m = .ok c) :
    dispatchRun raw tm qm bm st m = .ok (.calls [(hw, c)]) := by
  cases tp with
  | trades =>
    simp only [topicType] at hT
    simp only [regOf] at hnone hwc
    rw [hT] at hcast
    simp [dispatchRun, hT, hS, handlerGet, hnone, hwc, hcast, Except.map]
  | quotes =>
    simp only [topicType] at hT
    simp only [regOf] at hnone hwc
    rw [hT] at hcast
    simp [dispatchRun, hT, hS, handlerGet, hnone, hwc, hcast, Except.map]
  | bars =>
    simp only [topicType] at hT
    simp only [regOf] at hnone hwc
    rw [hT] at hcast
    simp [dispatchRun, hT, hS, handlerGet, hnone, hwc, hcast, Except.map]

theorem c9_wildcard_no_symbol_witness :
    dispatchRun true [] [] []
      { tradeHandlers := [(wildcardKey, { hid := 3, isCoroutine := true })],
        quoteHandlers := [], barHandlers := [], running := true }
      [("T", .str "t")] =
      .ok (.calls [({ hid := 3, isCoroutine := true },
        .rawMsg [("T", .str "t")])]) :=
  c9_wildcard_no_symbol true [] [] []
    { tradeHandlers := [(wildcardKey, { hid := 3, isCoroutine := true })],
      quoteHandlers := [], barHandlers := [], running := true }
    [("T", .str "t")] Topic.trades { hid := 3, isCoroutine := true }
    (.rawMsg [("T", .str "t")]) rfl rfl rfl rfl rfl

/-- C8 (counterexample): a live unsubscribe call listing zero symbols
sends no delta unsubscribe control message at all (`_unsubscribe` only
sends when some symbol list is non-empty), contradicting the claim that
every live unsubscribe call sends such a message; the call also raises
nothing. -/
theorem c8_empty_unsubscribe_counterexample :
    (unsubscribeRun Topic.trades
      { tradeHandlers := [(strKey "AAPL", { hid := 1, isCoroutine := true })],
        quoteHandlers := [], barHandlers := [], running := true } []).1 = []
    ∧ (unsubscribeRun Topic.trades
      { tradeHandlers := [(strKey "AAPL", { hid := 1, isCoroutine := true })],
        quoteHandlers := [], barHandlers := [], running := true } []).2.2 =
      none := by
  exact ⟨rfl, rfl⟩

/-- C8 (amended): for every unsubscribe call on any topic kind listing
at least one symbol, if the session is live, a delta unsubscribe control
message naming exactly the given symbols in that topic's slot (the other
slots empty) is sent before any registry removal (the sent event heads
the trace and everything after it is a removal event); a call listing no
symbols sends no message on any topic; and if any given symbol is absent
from that topic's registry, the call fails with a `KeyError`. -/
theorem c8_unsubscribe_delta_before_removal (t : Topic)
    (st : DataStreamState) (symbols : List String)
    (hrun : st.running = true) (hne : symbols ≠ []) :
    (unsubscribeRun t st symbols).1 =
      UEvent.sent (unsubWire t symbols) ::
        (delLoopEv (regOf t st) symbols).2.1
    ∧ (∀ e ∈ (delLoopEv (regOf t st) symbols).2.1,
        ∃ k, e = UEvent.removed k)
    ∧ (∀ (t' : Topic) (st' : DataStreamState), st'.running = true →
        (unsubscribeRun t' st' []).1 = [])
    ∧ ((∃ u ∈ symbols, dictLookup (strKey u) (regOf t st) = none) →
        ∃ k, (unsubscribeRun t st symbols).2.2 =
          some (.keyError k)) := by
  refine ⟨?_, ?_, ?_, ?_⟩
  · unfold unsubscribeRun
    rcases hdel : delLoopEv (regOf t st) symbols with ⟨d', evs, err⟩
    simp [hrun, hne, hdel]
  · intro e he
    rcases hdel : delLoopEv (regOf t st) symbols with ⟨d', evs, err⟩
    rw [hdel] at he
    exact delLoopEv_events symbols _ _ _ _ hdel e (by simpa using he)
  · intro t' st' hrun'
    unfold unsubscribeRun
    simp [delLoopEv]
  · intro hmiss
    obtain ⟨k, hk⟩ := delLoopEv_fail_of_missing symbols (regOf t st) hmiss
    refine ⟨k, ?_⟩
    unfold unsubscribeRun
    rcases hdel : delLoopEv (regOf t st) symbols with ⟨d', evs, err⟩
    rw [hdel] at hk
    simp at hk
    simp [hdel, hk]

theorem c8_unsubscribe_delta_before_removal_witness :
    (unsubscribeRun Topic.quotes
      { tradeHandlers := [],
        quoteHandlers := [(strKey "AAPL", { hid := 1, isCoroutine := true })],
        barHandlers := [], running := true }
      ["AAPL"]).1 =
      UEvent.sent (unsubWire Topic.quotes ["AAPL"]) ::
        (delLoopEv
          [(strKey "AAPL", { hid := 1, isCoroutine := true })]
          ["AAPL"]).2.1
    ∧ (unsubscribeRun Topic.bars
      { tradeHandlers := [], quoteHandlers := [],
        barHandlers := [(strKey "SPY", { hid := 2, isCoroutine := true })],
        running := true }
      ["SPY"]).1 =
      UEvent.sent (unsubWire Topic.bars ["SPY"]) ::
        (delLoopEv
          [(strKey "SPY", { hid := 2, isCoroutine := true })]
          ["SPY"]).2.1 :=
  ⟨(c8_unsubscribe_delta_before_removal Topic.quotes
    { tradeHandlers := [],
      quoteHandlers := [(strKey "AAPL", { hid := 1, isCoroutine := true })],
      barHandlers := [], running := true }
    ["AAPL"] rfl (by decide)).1,
  (c8_unsubscribe_delta_before_removal Topic.bars
    { tradeHandlers := [], quoteHandlers := [],
      barHandlers := [(strKey "SPY", { hid := 2, isCoroutine := true })],
      running := true }
    ["SPY"] rfl (by decide)).1⟩

/-- C10: a multi-symbol unsubscribe on any topic kind is not atomic on
error: when every symbol before `u` is removable in order and `u` is not
in that topic's registry, the call ends in `KeyError(u)` with the
registry left missing exactly the symbols that preceded `u` (their
removals are not rolled back), and the symbols after `u` are never
touched. -/
theorem c10_partial_unsubscribe (t : Topic) (st : DataStreamState)
    (pre : List String) (u : String) (post : List String) (d1 : Dict)
    (evs1 : List UEvent)
    (hnd : NodupKeys (regOf t st))
    (hu : dictLookup (strKey u) (regOf t st) = none)
    (hpre : delLoopEv (regOf t st) pre = (d1, evs1, none)) :
    (unsubscribeRun t st (pre ++ u :: post)).2 =
      (setReg t d1 st, some (.keyError (strKey u)))
    ∧ ∀ s ∈ pre, dictLookup (strKey s) d1 = none := by
  constructor
  · have hu1 : dictLookup (strKey u) d1 = none := by
      rw [delLoopEv_lookup pre (regOf t st) d1 evs1 hnd hpre (strKey u)]
      by_cases hmem : strKey u ∈ pre.map strKey <;> simp [hmem, hu]
    have hrem : dictRemove (strKey u) d1 = none :=
      (dictRemove_eq_none_iff _ _).mpr hu1
    have happ := delLoopEv_append_ok d1 (u :: post) pre (regOf t st)
      evs1 hpre
    rw [delLoopEv_cons_none d1 u post hrem] at happ
    simp at happ
    unfold unsubscribeRun
    rw [happ]
  · intro s hs
    rw [delLoopEv_lookup pre (regOf t st) d1 evs1 hnd hpre (strKey s)]
    rw [if_pos ((strKey_mem_map s pre).mpr hs)]

theorem c10_partial_unsubscribe_witness :
    (unsubscribeRun Topic.quotes
      { tradeHandlers := [],
        quoteHandlers :=
          [(strKey "A", { hid := 1, isCoroutine := true }),
            (strKey "C", { hid := 2, isCoroutine := true })],
        barHandlers := [], running := false }
      (["A"] ++ "B" :: ["C"])).2 =
      (setReg Topic.quotes
          [(strKey "C", { hid := 2, isCoroutine := true })]
          { tradeHandlers := [],
            quoteHandlers :=
              [(strKey "A", { hid := 1, isCoroutine := true }),
                (strKey "C", { hid := 2, isCoroutine := true })],
            barHandlers := [], running := false },
        some (.keyError (strKey "B")))
    ∧ (unsubscribeRun Topic.bars
      { tradeHandlers := [], quoteHandlers := [],
        barHandlers :=
          [(strKey "A", { hid := 3, isCoroutine := true }),
            (strKey "C", { hid := 4, isCoroutine := true })],
        running := false }
      (["A"] ++ "B" :: ["C"])).2 =
      (setReg Topic.bars
          [(strKey "C", { hid := 4, isCoroutine := true })]
          { tradeHandlers := [], quoteHandlers := [],
            barHandlers :=
              [(strKey "A", { hid := 3, isCoroutine := true }),
                (strKey "C", { hid := 4, isCoroutine := true })],
            running := false },
        some (.keyError (strKey "B"))) :=
  ⟨(c10_partial_unsubscribe Topic.quotes
    { tradeHandlers := [],
      quoteHandlers :=
        [(strKey "A", { hid := 1, isCoroutine := true }),
          (strKey "C", { hid := 2, isCoroutine := true })],
      barHandlers := [], running := false }
    ["A"] "B" ["C"] [(strKey "C", { hid := 2, isCoroutine := true })]
    [UEvent.removed (strKey "A")] (by decide) rfl rfl).1,
  (c10_partial_unsubscribe Topic.bars
    { tradeHandlers := [], quoteHandlers := [],
      barHandlers :=
        [(strKey "A", { hid := 3, isCoroutine := true }),
          (strKey "C", { hid := 4, isCoroutine := true })],
      running := false }
    ["A"] "B" ["C"] [(strKey "C", { hid := 4, isCoroutine := true })]
    [UEvent.removed (strKey "A")] (by decide) rfl rfl).1⟩

theorem applySeq_cons_ok (st st1 : DataStreamState) (op : Op)
    (ops : List Op) (h : applyOp st op = .ok st1) :
    applySeq st (op :: ops) = applySeq st1 ops := by
  simp [applySeq, h]

theorem applySeq_cons_err (st : DataStreamState) (op : Op) (ops : List Op)
    (e : PyError) (h : applyOp st op = .error e) :
    applySeq st (op :: ops) = .error e := by
  simp [applySeq, h]

/-- C2: after any valid (error-free) sequence of subscribe and
unsubscribe calls starting from a fresh session, the key set carried per
topic in the next bulk resubscribe-all message is exactly the net effect
of the sequence: a symbol is present iff the last operation naming it on
that topic was a subscribe, and the handler stored for it is the
last-registered one; moreover two calls touching disjoint
`(topic, symbol)` sets commute, so the registry content (hence the
message) is independent of the call order for non-overlapping symbols. -/
theorem c2_resubscribe_net_effect (ops : List Op) (s : DataStreamState)
    (w : WireSub) (hap : applySeq emptyDataStream ops = .ok s)
    (hw : subscribeAllMsg s = some w) :
    (∀ (t : Topic) (k : String),
        (strKey k ∈ topicKeys t w ↔ lastWrite t k ops ≠ none)
      ∧ dictLookup (strKey k) (regOf t s) = lastWrite t k ops)
    ∧ ∀ (op1 op2 : Op) (st s12 : DataStreamState),
        RegNodup st → OpDisjoint op1 op2 →
        applySeq st [op1, op2] = .ok s12 →
        ∃ s21, applySeq st [op2, op1] = .ok s21 ∧
          ∀ (t : Topic) (kk : Key),
            dictLookup kk (regOf t s12) = dictLookup kk (regOf t s21) := by
  have hnd0 : RegNodup emptyDataStream := by
    refine ⟨?_, ?_, ?_⟩ <;> simp [emptyDataStream, NodupKeys, dictKeys]
  constructor
  · intro t k
    have hbase : dictLookup (strKey k) (regOf t emptyDataStream) = none := by
      cases t <;> rfl
    have hlk := applySeq_lookup ops emptyDataStream s hnd0 hap t k
    rw [hbase] at hlk
    refine ⟨?_, hlk⟩
    rw [subscribeAllMsg_topicKeys s w hw t, mem_dictKeys_iff, hlk]
    exact Iff.rfl
  · intro op1 op2 st s12 hnd hdisj hseq
    cases hop1 : applyOp st op1 with
    | error e =>
      rw [applySeq_cons_err st op1 [op2] e hop1] at hseq
      cases hseq
    | ok s1 =>
      rw [applySeq_cons_ok st s1 op1 [op2] hop1] at hseq
      cases hop2 : applyOp s1 op2 with
      | error e =>
        rw [applySeq_cons_err s1 op2 [] e hop2] at hseq
        cases hseq
      | ok s12' =>
        rw [applySeq_cons_ok s1 s12' op2 [] hop2] at hseq
        simp [applySeq] at hseq
        rw [hseq] at hop2
        obtain ⟨s2, s21, hs2, hs21, heq⟩ :=
          applyOp_comm op1 op2 st s1 s12 hnd hdisj hop1 hop2
        refine ⟨s21, ?_, heq⟩
        rw [applySeq_cons_ok st s2 op2 [op1] hs2,
          applySeq_cons_ok s2 s21 op1 [] hs21]
        rfl

theorem c2_resubscribe_net_effect_witness :
    strKey "AAPL" ∈ topicKeys Topic.trades
        { trades := [strKey "AAPL"], quotes := [], bars := [] } ↔
      lastWrite Topic.trades "AAPL"
        [Op.sub Topic.trades { hid := 1, isCoroutine := true } ["AAPL"]] ≠
        none :=
  ((c2_resubscribe_net_effect
    [Op.sub Topic.trades { hid := 1, isCoroutine := true } ["AAPL"]]
    { tradeHandlers :=
        [(strKey "AAPL", { hid := 1, isCoroutine := true })],
      quoteHandlers := [], barHandlers := [], running := false }
    { trades := [strKey "AAPL"], quotes := [], bars := [] }
    rfl rfl).1 Topic.trades "AAPL").1

end AlpacaStream
